import Mathlib

/-!
Shallow embedding of the price-resolution core of `build_vfd_report.py`
(Smart Industrial Solution VFD stock-list report generator, version 0.5).

Model identifiers are `String`s; prices and quantities are rationals
(`ℚ` models the script's real-valued arithmetic); a missing value
(Python `None` / pandas `NaN`) is `Option.none`.  The Python `dict`s
`listprice_map` and `price127_map` are association lists with
last-entry-wins lookup, matching `dict(zip(...))` construction.
`float("inf")` — the sentinel returned by `extract_capacity_kw` when no
capacity token is found — is modelled as `Option.none`, ordered above
every `some` value by `capLe` below.
-/

namespace VFD

/-- Python `str.isdigit`-style ASCII digit test used by the regexes. -/
def isDigitCh (c : Char) : Bool :=
  decide ('0' ≤ c) && decide (c ≤ '9')

/-- Python regex `\s` over the ASCII whitespace characters. -/
def pySpace (c : Char) : Bool :=
  c = ' ' || c = '\t' || c = '\n' || c = '\x0d' || c = '\x0b' || c = '\x0c'

/-- ASCII upper-case letter, for the regex class `[A-Z]`. -/
def isUpperCh (c : Char) : Bool :=
  decide ('A' ≤ c) && decide (c ≤ 'Z')

/-- The letter `K` case-insensitively (the regexes use flag `re.I`). -/
def isKCh (c : Char) : Bool :=
  c = 'K' || c = 'k'

/-- ASCII lower-casing, as Python `str.lower` acts on these identifiers. -/
def lowerCh (c : Char) : Char :=
  if isUpperCh c then Char.ofNat (c.toNat + 32) else c

/-- Lower-case every character of a model identifier (`model.lower()`). -/
def lowerL (s : List Char) : List Char :=
  s.map lowerCh

/-- Numeric value of a digit run, as `float`/`int` parsing reads it. -/
def digitsToNat (ds : List Char) : Nat :=
  ds.foldl (fun n c => 10 * n + (c.toNat - ('0').toNat)) 0

/-- Python `str.strip()`: drop leading and trailing whitespace. -/
def stripL (s : List Char) : List Char :=
  ((s.dropWhile pySpace).reverse.dropWhile pySpace).reverse

/-- Substring containment, Python `pat in s`. -/
def containsSub (s pat : List Char) : Bool :=
  match s with
  | [] => pat.isEmpty
  | c :: cs => pat.isPrefixOf (c :: cs) || containsSub cs pat

/-- Python `s.replace(pat, rep, 1)`: replace the first occurrence only. -/
def replaceFirstL (s pat rep : List Char) : List Char :=
  match s with
  | [] => []
  | c :: cs =>
    if pat.isPrefixOf (c :: cs) then rep ++ (c :: cs).drop pat.length
    else c :: replaceFirstL cs pat rep

/--
Match the regex `([0-9]+(?:\.[0-9]+)?)\s*K` (flag `re.I`) anchored at the
head of `s`, returning the numeric value of group 1.  The greedy scan with
a single fallback to the fraction-free alternative is equivalent to the
backtracking search: shrinking a maximal digit run always leaves a digit
in a position where `\.`, `\s` or `K` is required.
-/
def matchNumK (s : List Char) : Option ℚ :=
  let d1 := s.takeWhile isDigitCh
  let r1 := s.dropWhile isDigitCh
  if d1.isEmpty then none
  else
    let withFrac : Option ℚ :=
      match r1 with
      | '.' :: r2 =>
        let d2 := r2.takeWhile isDigitCh
        let r3 := r2.dropWhile isDigitCh
        if d2.isEmpty then none
        else
          match r3.dropWhile pySpace with
          | c :: _ =>
            if isKCh c then
              some ((digitsToNat d1 : ℚ) + (digitsToNat d2 : ℚ) / ((10 : ℚ) ^ d2.length))
            else none
          | [] => none
      | _ => none
    match withFrac with
    | some v => some v
    | none =>
      match r1.dropWhile pySpace with
      | c :: _ => if isKCh c then some ((digitsToNat d1 : ℚ)) else none
      | [] => none

/-- `re.search` of the capacity regex: leftmost matching start position. -/
def searchNumK : List Char → Option ℚ
  | [] => none
  | c :: cs =>
    match matchNumK (c :: cs) with
    | some v => some v
    | none => searchNumK cs

/-- Match `H([0-9]+(?:\.[0-9]+)?)\s*K` (flag `re.I`) at the head of `s`. -/
def matchHNumK (s : List Char) : Option ℚ :=
  match s with
  | [] => none
  | c :: cs => if c = 'H' || c = 'h' then matchNumK cs else none

/-- `re.search` of the `H`-prefixed capacity regex. -/
def searchHNumK : List Char → Option ℚ
  | [] => none
  | c :: cs =>
    match matchHNumK (c :: cs) with
    | some v => some v
    | none => searchHNumK cs

/--
`extract_capacity_kw` (lines 97–115): extract the numeric capacity in kW
from a model string.  The Python function returns `float("inf")` when
neither regex matches; that sentinel is modelled as `none`.
-/
def extract_capacity_kw (model : String) : Option ℚ :=
  match searchNumK model.toList with
  | some v => some v
  | none =>
    match searchHNumK model.toList with
    | some v => some v
    | none => none

/-- Match `FR-([A-Z]+)` at the head of `s`, returning group 1. -/
def matchSeriesAt (s : List Char) : Option (List Char) :=
  match s with
  | 'F' :: 'R' :: '-' :: rest =>
    let u := rest.takeWhile isUpperCh
    if u.isEmpty then none else some u
  | _ => none

/-- `re.search` of the series regex: leftmost match. -/
def searchSeries : List Char → Option (List Char)
  | [] => none
  | c :: cs =>
    match matchSeriesAt (c :: cs) with
    | some u => some u
    | none => searchSeries cs

/--
`series_rank` (lines 118–126): ordering key from the series letter, via
`SERIES_ORDER = \x7bD: 0, E: 1, F: 2, A: 3, HEL: 4\x7d`.  A series starting
with `HEL` ranks 4; otherwise the first letter is looked up with
default 99 (also used when the `FR-` pattern does not match at all).
-/
def series_rank (model : String) : Nat :=
  let series : List Char := (searchSeries model.toList).getD []
  if (['H', 'E', 'L']).isPrefixOf series then 4
  else
    match series.head? with
    | some 'D' => 0
    | some 'E' => 1
    | some 'F' => 2
    | some 'A' => 3
    | _ => 99

/-- A Python `dict` from model identifiers to prices, as built by
`dict(zip(models, prices))`: an association list where a later entry
overrides an earlier one with the same key. -/
abbrev PriceMap := List (String × ℚ)

/-- `d.get(k)` / `k in d` lookup on such a dict (last entry wins). -/
def dictGet (m : PriceMap) (k : String) : Option ℚ :=
  m.foldl (fun acc p => if p.1 = k then some p.2 else acc) none

/--
The list-price resolution the script actually performs (line 238):
`listprice_map.get(model)` — a plain exact-key lookup, with no fallback
of any kind.  Named after the spec's `resolveListPrice` operation.
-/
def resolveListPrice (model : String) (listprice_map : PriceMap) : Option ℚ :=
  dictGet listprice_map model

/--
`find_price127` (lines 129–149): retrieve the 1.27-tier price with
fallback — direct match, else replace the first `720` by `820` (or,
failing containment of `720`, the first `740` by `840`) in the model
string itself and look that up.  Returns `none` if not found.
This is the `fallback = (...)` expression of lines 140–146.
-/
def fallback127 (ml : List Char) : Option (List Char) :=
  if containsSub ml (['7', '2', '0']) then
    some (replaceFirstL ml (['7', '2', '0']) (['8', '2', '0']))
  else if containsSub ml (['7', '4', '0']) then
    some (replaceFirstL ml (['7', '4', '0']) (['8', '4', '0']))
  else none

/-- Body of `find_price127` (lines 129–149): exact lookup, else look up
the `fallback127` candidate when it is a non-empty (truthy) string. -/
def find_price127 (model : String) (price127_map : PriceMap) : Option ℚ :=
  match dictGet price127_map model with
  | some p => some p
  | none =>
    match fallback127 model.toList with
    | some fb => if fb.isEmpty then none else dictGet price127_map (String.mk fb)
    | none => none

/-- One inventory row as the transform loop reads it (lines 222–232):
`Model`, `Qty` and `Total cost`, the numeric fields possibly `NaN`. -/
structure InventoryRow where
  model : String
  qty : Option ℚ
  totalCost : Option ℚ
deriving DecidableEq

/-- One output record as appended at lines 251–264. -/
structure PricedRecord where
  model : String
  qty : ℚ
  listPrice : Option ℚ
  disc20 : Option ℚ
  disc25 : Option ℚ
  disc30 : Option ℚ
  gpPercent : Option ℚ
  cogs : Option ℚ
  cogsX175 : Option ℚ
  price127 : Option ℚ
deriving DecidableEq

/-- `list_price * factor if list_price else None` (lines 241–243): Python
truthiness makes both a missing and a zero list price yield `None`. -/
def applyDisc (lp : Option ℚ) (factor : ℚ) : Option ℚ :=
  match lp with
  | some p => if p = 0 then none else some (p * factor)
  | none => none

/--
The body of the transform loop (lines 222–264) for a single inventory
row: `None` when the row is skipped by a `continue`, otherwise the
record appended to `records`.  The row is skipped when `Qty` is `NaN`
or zero (line 226), or when the stripped model equals the
case-sensitive literal in `SKIP_MODEL_EXACT` or contains `PEC`
case-insensitively (line 229).
-/
def transformRow (listprice_map price127_map : PriceMap) (row : InventoryRow) :
    Option PricedRecord :=
  let model := String.mk (stripL row.model.toList)
  match row.qty with
  | none => none
  | some qty =>
    if qty = 0 then none
    else if model = ("FR-S520SE-0.2K-19") ||
        containsSub (lowerL model.toList) (['p', 'e', 'c']) then none
    else
      let cogs : Option ℚ :=
        match row.totalCost with
        | none => none
        | some tc => if qty = 0 then none else some (tc / qty)
      let cogs_x175 : Option ℚ := cogs.map (fun c => c * (175 / 100))
      let list_price : Option ℚ := resolveListPrice model listprice_map
      let price127 : Option ℚ := find_price127 model price127_map
      let gp_percent : Option ℚ :=
        match list_price, cogs with
        | some p, some c => if p = 0 then none else some ((p - c) / p * 100)
        | _, _ => none
      some
        { model := model
          qty := qty
          listPrice := list_price
          disc20 := applyDisc list_price (80 / 100)
          disc25 := applyDisc list_price (75 / 100)
          disc30 := applyDisc list_price (70 / 100)
          gpPercent := gp_percent
          cogs := cogs
          cogsX175 := cogs_x175
          price127 := price127 }

/-- The whole transform loop: the `records` list in input order. -/
def transform (listprice_map price127_map : PriceMap)
    (inv : List InventoryRow) : List PricedRecord :=
  inv.filterMap (transformRow listprice_map price127_map)

/-- Order on capacities: `none` models `float("inf")`, above every
finite capacity, exactly as the float sorts in pandas. -/
def capLe : Option ℚ → Option ℚ → Bool
  | _, none => true
  | none, some _ => false
  | some x, some y => decide (x ≤ y)

/-- The per-record sort key `(CapacityKW, SeriesRank)` of lines 269–270. -/
def sortKey (r : PricedRecord) : Option ℚ × Nat :=
  (extract_capacity_kw r.model, series_rank r.model)

/-- Lexicographic comparison of sort keys, as
`df.sort_values(["CapacityKW", "SeriesRank"])` orders rows. -/
def keyLe (a b : Option ℚ × Nat) : Bool :=
  if a.1 = b.1 then decide (a.2 ≤ b.2) else capLe a.1 b.1

/-- Row comparison induced by the sort keys. -/
def recLe (r s : PricedRecord) : Bool :=
  keyLe (sortKey r) (sortKey s)

/--
The transform-and-sort pipeline (lines 221–271): build the records,
then sort by capacity and series rank.  pandas `sort_values` on several
columns is `numpy.lexsort`, a stable sort, embedded here as the stable
`List.mergeSort`.
-/
def pipeline (listprice_map price127_map : PriceMap)
    (inv : List InventoryRow) : List PricedRecord :=
  (transform listprice_map price127_map inv).mergeSort recLe

/-- Concrete inventory row for the spec's gross-profit example. -/
def rowF840 : InventoryRow := ⟨"FR-F840-37K", some 1, some 20000⟩

/-- Concrete list-price table for the spec's gross-profit example. -/
def lpF840 : PriceMap := [(("FR-F840-37K" : String), (28000 : ℚ))]

/-- The record `transformRow` produces from `rowF840` and `lpF840`. -/
def recF840 : PricedRecord :=
  { model := "FR-F840-37K"
    qty := 1
    listPrice := some 28000
    disc20 := some (28000 * (80 / 100))
    disc25 := some (28000 * (75 / 100))
    disc30 := some (28000 * (70 / 100))
    gpPercent := some ((28000 - 20000 / 1) / 28000 * 100)
    cogs := some (20000 / 1)
    cogsX175 := some (20000 / 1 * (175 / 100))
    price127 := none }

/-- Concrete row whose model has no entry in any price table. -/
def rowNoPrice : InventoryRow := ⟨"FR-X-NOPRICE", some 2, some 10⟩

/-- The record `transformRow` produces from `rowNoPrice` and empty maps. -/
def recNoPrice : PricedRecord :=
  { model := "FR-X-NOPRICE"
    qty := 2
    listPrice := none
    disc20 := none
    disc25 := none
    disc30 := none
    gpPercent := none
    cogs := some (10 / 2)
    cogsX175 := some (10 / 2 * (175 / 100))
    price127 := none }

/-- Concrete two-row inventory used to witness determinism. -/
def invDet : List InventoryRow :=
  [⟨"FR-D720S-5.5K", some 1, some 10⟩, ⟨"FR-A840-5.5K", some 2, some 30⟩]

/-- Concrete row with total cost zero, so the unit cost is zero. -/
def rowZeroCost : InventoryRow := ⟨"FR-F840-37K", some 1, some 0⟩

/-- Concrete row whose quantity is missing (pandas `NaN`). -/
def rowNanQty : InventoryRow := ⟨"FR-NANQTY-ROW", none, some 5⟩

/-- Concrete row with a direct list-price entry, for the discount claim. -/
def rowD720 : InventoryRow := ⟨"FR-D720S-5.5K", some 1, some 10⟩

/-- List-price table with a direct entry for `rowD720`. -/
def lpD720 : PriceMap := [(("FR-D720S-5.5K" : String), (50000 : ℚ))]

/-- The record `transformRow` produces from `rowD720` and `lpD720`. -/
def recD720 : PricedRecord :=
  { model := "FR-D720S-5.5K"
    qty := 1
    listPrice := some 50000
    disc20 := some (50000 * (80 / 100))
    disc25 := some (50000 * (75 / 100))
    disc30 := some (50000 * (70 / 100))
    gpPercent := some ((50000 - 10 / 1) / 50000 * 100)
    cogs := some (10 / 1)
    cogsX175 := some (10 / 1 * (175 / 100))
    price127 := none }

/-- List-price table holding a present-but-zero price. -/
def lpZero : PriceMap := [(("FR-Z840-11K" : String), (0 : ℚ))]

/-- Concrete row whose model has the present-but-zero list price. -/
def rowZeroLp : InventoryRow := ⟨"FR-Z840-11K", some 1, some 10⟩

theorem capLe_total (a b : Option ℚ) : capLe a b || capLe b a := by
  rcases a with _ | x <;> rcases b with _ | y <;>
    simp only [capLe, Bool.or_eq_true, decide_eq_true_eq, Bool.true_or, Bool.or_true]
  exact le_total x y

theorem capLe_trans (a b c : Option ℚ) : capLe a b → capLe b c → capLe a c := by
  rcases a with _ | x <;> rcases b with _ | y <;> rcases c with _ | z <;>
    simp only [capLe, decide_eq_true_eq, forall_true_left, imp_self, false_implies,
      implies_true, imp_false, Bool.true_eq_false, Bool.false_eq_true]
  exact le_trans

theorem capLe_antisymm (a b : Option ℚ) : capLe a b → capLe b a → a = b := by
  rcases a with _ | x <;> rcases b with _ | y <;>
    simp only [capLe, decide_eq_true_eq, forall_true_left, imp_self, false_implies,
      implies_true, imp_false, Bool.true_eq_false, Bool.false_eq_true]
  intro h1 h2
  rw [le_antisymm h1 h2]

theorem keyLe_trans (a b c : Option ℚ × Nat) : keyLe a b → keyLe b c → keyLe a c := by
  unfold keyLe
  intro hab hbc
  by_cases h1 : a.1 = b.1
  · by_cases h2 : b.1 = c.1
    · have h3 : a.1 = c.1 := h1.trans h2
      rw [if_pos h1, decide_eq_true_eq] at hab
      rw [if_pos h2, decide_eq_true_eq] at hbc
      rw [if_pos h3, decide_eq_true_eq]
      exact le_trans hab hbc
    · have h3 : ¬ a.1 = c.1 := fun e => h2 (h1.symm.trans e)
      rw [if_neg h2] at hbc
      rw [if_neg h3, h1]
      exact hbc
  · by_cases h2 : b.1 = c.1
    · have h3 : ¬ a.1 = c.1 := fun e => h1 (e.trans h2.symm)
      rw [if_neg h1] at hab
      rw [if_neg h3, ← h2]
      exact hab
    · rw [if_neg h1] at hab
      rw [if_neg h2] at hbc
      by_cases h3 : a.1 = c.1
      · exact absurd (capLe_antisymm _ _ hab (by rw [h3]; exact hbc)) h1
      · rw [if_neg h3]
        exact capLe_trans _ _ _ hab hbc

theorem keyLe_total (a b : Option ℚ × Nat) : keyLe a b || keyLe b a := by
  unfold keyLe
  by_cases h : a.1 = b.1
  · rw [if_pos h, if_pos h.symm]
    rcases Nat.le_total a.2 b.2 with h2 | h2
    · rw [decide_eq_true h2, Bool.true_or]
    · rw [decide_eq_true h2, Bool.or_true]
  · rw [if_neg h, if_neg (fun e => h (e.symm))]
    exact capLe_total a.1 b.1

theorem recLe_trans (a b c : PricedRecord) : recLe a b → recLe b c → recLe a c :=
  keyLe_trans _ _ _

theorem recLe_total (a b : PricedRecord) : recLe a b || recLe b a :=
  keyLe_total _ _

theorem recLe_of_sortKey_eq {a b : PricedRecord} (h : sortKey a = sortKey b) :
    recLe a b := by
  unfold recLe keyLe
  rw [h]
  simp

/-- Stability of the pipeline sort: among records with any one sort key,
the sorted output lists them exactly in input order. -/
theorem mergeSort_recLe_filter_key (l : List PricedRecord) (k : Option ℚ × Nat) :
    (l.mergeSort recLe).filter (fun r => decide (sortKey r = k)) =
      l.filter (fun r => decide (sortKey r = k)) := by
  have hpair : (l.filter (fun r => decide (sortKey r = k))).Pairwise
      (fun a b => recLe a b = true) := by
    apply List.pairwise_of_forall_mem_list
    intro a ha b hb
    have hak : sortKey a = k := by simpa using (List.mem_filter.mp ha).2
    have hbk : sortKey b = k := by simpa using (List.mem_filter.mp hb).2
    exact recLe_of_sortKey_eq (hak.trans hbk.symm)
  have hsub : List.Sublist (l.filter (fun r => decide (sortKey r = k)))
      (l.mergeSort recLe) :=
    List.sublist_mergeSort recLe_trans recLe_total hpair (List.filter_sublist l)
  have heq : (l.filter (fun r => decide (sortKey r = k))).filter
      (fun r => decide (sortKey r = k)) = l.filter (fun r => decide (sortKey r = k)) :=
    List.filter_eq_self.mpr (fun a ha => (List.mem_filter.mp ha).2)
  have hsub2 : List.Sublist (l.filter (fun r => decide (sortKey r = k)))
      ((l.mergeSort recLe).filter (fun r => decide (sortKey r = k))) := by
    have := hsub.filter (fun r => decide (sortKey r = k))
    rwa [heq] at this
  have hperm : List.Perm ((l.mergeSort recLe).filter (fun r => decide (sortKey r = k)))
      (l.filter (fun r => decide (sortKey r = k))) :=
    (List.mergeSort_perm l recLe).filter _
  exact (hsub2.eq_of_length hperm.length_eq.symm).symm

theorem replaceFirstL_ne_nil (s pat rep : List Char) (hs : s ≠ []) (hrep : rep ≠ []) :
    replaceFirstL s pat rep ≠ [] := by
  cases s with
  | nil => exact absurd rfl hs
  | cons c cs =>
    unfold replaceFirstL
    split
    · rcases rep with _ | ⟨r, rs⟩
      · exact absurd rfl hrep
      · simp
    · simp

theorem containsSub_ne_nil (s pat : List Char) (hpat : pat ≠ [])
    (h : containsSub s pat = true) : s ≠ [] := by
  cases s with
  | nil =>
    unfold containsSub at h
    rw [List.isEmpty_iff] at h
    exact absurd h hpat
  | cons c cs => simp

/-- Structure of a record produced by the transform loop: the quantity
guard passed, and every field is the corresponding expression from
lines 232–264 of the script. -/
theorem transformRow_eq_some (listprice_map price127_map : PriceMap)
    (row : InventoryRow) (rec : PricedRecord)
    (h : transformRow listprice_map price127_map row = some rec) :
    ∃ q, row.qty = some q ∧ q ≠ 0 ∧
      rec.model = String.mk (stripL row.model.toList) ∧
      rec.qty = q ∧
      rec.listPrice = resolveListPrice rec.model listprice_map ∧
      rec.cogs = (match row.totalCost with
        | none => none
        | some tc => some (tc / q)) ∧
      rec.cogsX175 = rec.cogs.map (fun c => c * (175 / 100)) ∧
      rec.price127 = find_price127 rec.model price127_map ∧
      rec.disc20 = applyDisc rec.listPrice (80 / 100) ∧
      rec.disc25 = applyDisc rec.listPrice (75 / 100) ∧
      rec.disc30 = applyDisc rec.listPrice (70 / 100) ∧
      rec.gpPercent = (match rec.listPrice, rec.cogs with
        | some p, some c => if p = 0 then none else some ((p - c) / p * 100)
        | _, _ => none) := by
  unfold transformRow at h
  rcases hq : row.qty with _ | q
  · rw [hq] at h
    cases h
  · rw [hq] at h
    simp only [] at h
    by_cases h0 : q = 0
    · rw [if_pos h0] at h
      cases h
    · rw [if_neg h0] at h
      by_cases hskip : (decide (String.mk (stripL row.model.toList) =
          ("FR-S520SE-0.2K-19")) ||
          containsSub (lowerL (String.mk (stripL row.model.toList)).toList)
            (['p', 'e', 'c'])) = true
      · rw [if_pos hskip] at h
        cases h
      · rw [if_neg hskip] at h
        have hrec := (Option.some.inj h).symm
        subst hrec
        refine ⟨q, rfl, h0, rfl, rfl, rfl, ?_, rfl, rfl, rfl, rfl, rfl, rfl⟩
        rcases row.totalCost with _ | tc
        · rfl
        · show (if q = 0 then none else some (tc / q)) = some (tc / q)
          rw [if_neg h0]

/-- C1 counterexample: `FR-D720S-5.5K` has no exact entry, its 720/820
series-swap equivalent `FR-A820-5.5K-1` is present at 50000, yet the
script's list-price resolution (line 238, a plain `dict.get`) returns
absent — the claimed fallback does not exist in the code. -/
theorem resolveListPrice_no_fallback_cx :
    dictGet ([(("FR-A820-5.5K-1" : String), (50000 : ℚ))]) ("FR-D720S-5.5K") = none ∧
    dictGet ([(("FR-A820-5.5K-1" : String), (50000 : ℚ))]) ("FR-A820-5.5K-1") =
      some 50000 ∧
    resolveListPrice ("FR-D720S-5.5K")
      ([(("FR-A820-5.5K-1" : String), (50000 : ℚ))]) = none :=
  ⟨rfl, rfl, rfl⟩

/-- C1 (amended): list-price resolution is an exact dictionary lookup
only; for every model with no exact entry in the list-price table it
returns absent — no series-swap step and no cross-series fallback is
ever attempted, whatever equivalent entries the table holds. -/
theorem resolveListPrice_exact_only (model : String) (listprice_map : PriceMap)
    (h : dictGet listprice_map model = none) :
    resolveListPrice model listprice_map = none :=
  h

/-- C1 witness: the amended theorem at the counterexample's input. -/
theorem resolveListPrice_exact_only_witness :
    resolveListPrice ("FR-D720S-5.5K")
      ([(("FR-A820-5.5K-1" : String), (50000 : ℚ))]) = none :=
  resolveListPrice_exact_only ("FR-D720S-5.5K")
    ([(("FR-A820-5.5K-1" : String), (50000 : ℚ))]) rfl

/-- C2 counterexample: `UNKNOWN-MODEL-X` has no capacity token; the
script returns the `float("inf")` sentinel (`none` here), not `0`, and
the model sorts after, not before, the parseable `FR-D720S-5.5K`. -/
theorem extract_capacity_sentinel_cx :
    extract_capacity_kw ("UNKNOWN-MODEL-X") = none ∧
    extract_capacity_kw ("UNKNOWN-MODEL-X") ≠ some 0 ∧
    capLe (extract_capacity_kw ("UNKNOWN-MODEL-X"))
      (extract_capacity_kw ("FR-D720S-5.5K")) = false ∧
    capLe (extract_capacity_kw ("FR-D720S-5.5K"))
      (extract_capacity_kw ("UNKNOWN-MODEL-X")) = true :=
  ⟨rfl, by decide, rfl, rfl⟩

/-- C2 (amended): a model with no parseable capacity gets the infinity
sentinel, which is a maximum of the capacity order: every capacity is
`capLe`-below it, and it is not below any parseable capacity — so
unparseable models sort after, not before, all parseable ones. -/
theorem extract_capacity_sentinel_top (m : String)
    (h : extract_capacity_kw m = none) :
    ∀ m' : String,
      capLe (extract_capacity_kw m') (extract_capacity_kw m) = true ∧
      (∀ q : ℚ, extract_capacity_kw m' = some q →
        capLe (extract_capacity_kw m) (extract_capacity_kw m') = false) := by
  intro m'
  constructor
  · rw [h]
    rcases extract_capacity_kw m' with _ | v <;> rfl
  · intro q hq
    rw [h, hq]
    rfl

/-- C2 witness: the amended theorem at the counterexample's inputs. -/
theorem extract_capacity_sentinel_top_witness :
    capLe (extract_capacity_kw ("FR-D720S-5.5K"))
      (extract_capacity_kw ("UNKNOWN-MODEL-X")) = true ∧
    (∀ q : ℚ, extract_capacity_kw ("FR-D720S-5.5K") = some q →
      capLe (extract_capacity_kw ("UNKNOWN-MODEL-X"))
        (extract_capacity_kw ("FR-D720S-5.5K")) = false) :=
  extract_capacity_sentinel_top ("UNKNOWN-MODEL-X") rfl ("FR-D720S-5.5K")

/-- C3 counterexample: `FR-D720S-5.5K` has no exact 1.27 entry; the
claimed series-`E`-with-suffix equivalent `FR-E820-5.5K-1` is present
at 30000, yet `find_price127` returns absent, because its fallback
keeps the series letter and suffix (it tries `FR-D820S-5.5K`). -/
theorem find_price127_no_series_swap_cx :
    dictGet ([(("FR-E820-5.5K-1" : String), (30000 : ℚ))]) ("FR-D720S-5.5K") = none ∧
    dictGet ([(("FR-E820-5.5K-1" : String), (30000 : ℚ))]) ("FR-E820-5.5K-1") =
      some 30000 ∧
    find_price127 ("FR-D720S-5.5K")
      ([(("FR-E820-5.5K-1" : String), (30000 : ℚ))]) = none ∧
    String.mk (replaceFirstL ("FR-D720S-5.5K").toList (['7', '2', '0'])
      (['8', '2', '0'])) = ("FR-D820S-5.5K" : String) :=
  ⟨rfl, rfl, rfl, rfl⟩

/-- C3 (amended): with no exact entry, the 1.27 fallback looks up the
model itself with its first `720` replaced by `820` when it contains
`720`, else with its first `740` replaced by `840` when it contains
`740` (series letter and suffix unchanged, no `-1` appended), and is
absent otherwise. -/
theorem find_price127_fallback (model : String) (price127_map : PriceMap)
    (h : dictGet price127_map model = none) :
    find_price127 model price127_map =
      (if containsSub model.toList (['7', '2', '0']) then
        dictGet price127_map
          (String.mk (replaceFirstL model.toList (['7', '2', '0']) (['8', '2', '0'])))
      else if containsSub model.toList (['7', '4', '0']) then
        dictGet price127_map
          (String.mk (replaceFirstL model.toList (['7', '4', '0']) (['8', '4', '0'])))
      else none) := by
  unfold find_price127 fallback127
  rw [h]
  by_cases h720 : containsSub model.toList (['7', '2', '0']) = true
  · have hne : replaceFirstL model.toList (['7', '2', '0']) (['8', '2', '0']) ≠ [] :=
      replaceFirstL_ne_nil _ _ _
        (containsSub_ne_nil _ _ (by simp) h720) (by simp)
    rw [if_pos h720, if_pos h720]
    show (if (replaceFirstL model.toList (['7', '2', '0']) (['8', '2', '0'])).isEmpty
        then none
        else dictGet price127_map
          (String.mk (replaceFirstL model.toList (['7', '2', '0']) (['8', '2', '0'])))) = _
    rw [if_neg (fun he => hne (List.isEmpty_iff.mp he))]
  · rw [if_neg h720, if_neg h720]
    by_cases h740 : containsSub model.toList (['7', '4', '0']) = true
    · have hne : replaceFirstL model.toList (['7', '4', '0']) (['8', '4', '0']) ≠ [] :=
        replaceFirstL_ne_nil _ _ _
          (containsSub_ne_nil _ _ (by simp) h740) (by simp)
      rw [if_pos h740, if_pos h740]
      show (if (replaceFirstL model.toList (['7', '4', '0']) (['8', '4', '0'])).isEmpty
          then none
          else dictGet price127_map
            (String.mk (replaceFirstL model.toList (['7', '4', '0']) (['8', '4', '0'])))) = _
      rw [if_neg (fun he => hne (List.isEmpty_iff.mp he))]
    · rw [if_neg h740, if_neg h740]

/-- C3 witness: the amended theorem at a concrete input, where the
in-place replacement candidate `FR-D820S-5.5K` is present. -/
theorem find_price127_fallback_witness :
    find_price127 ("FR-D720S-5.5K") ([(("FR-D820S-5.5K" : String), (42 : ℚ))]) =
      (if containsSub ("FR-D720S-5.5K").toList (['7', '2', '0']) then
        dictGet ([(("FR-D820S-5.5K" : String), (42 : ℚ))])
          (String.mk (replaceFirstL ("FR-D720S-5.5K").toList (['7', '2', '0'])
            (['8', '2', '0'])))
      else if containsSub ("FR-D720S-5.5K").toList (['7', '4', '0']) then
        dictGet ([(("FR-D820S-5.5K" : String), (42 : ℚ))])
          (String.mk (replaceFirstL ("FR-D720S-5.5K").toList (['7', '4', '0'])
            (['8', '4', '0'])))
      else none) :=
  find_price127_fallback ("FR-D720S-5.5K")
    ([(("FR-D820S-5.5K" : String), (42 : ℚ))]) rfl

/-- C4: the output of the transform-and-sort pipeline is sorted by the
lexicographic capacity-then-series-rank order, is a permutation of the
filtered records, and preserves the input order of records sharing a
sort key — i.e. it is the stable sort of the filtered input by
ascending capacity and series rank. -/
theorem pipeline_stable_sort (listprice_map price127_map : PriceMap)
    (inv : List InventoryRow) :
    (pipeline listprice_map price127_map inv).Pairwise
      (fun a b => recLe a b = true) ∧
    List.Perm (pipeline listprice_map price127_map inv)
      (transform listprice_map price127_map inv) ∧
    (∀ k : Option ℚ × Nat,
      (pipeline listprice_map price127_map inv).filter
          (fun r => decide (sortKey r = k)) =
        (transform listprice_map price127_map inv).filter
          (fun r => decide (sortKey r = k))) :=
  ⟨List.sorted_mergeSort recLe_trans recLe_total _,
   List.mergeSort_perm _ _,
   fun k => mergeSort_recLe_filter_key _ k⟩

/-- C5 counterexample: the lower-case spelling of the excluded literal
matches it case-insensitively, yet the record is kept, because the
script's exact-model exclusion (line 229) compares case-sensitively. -/
theorem exclusion_case_sensitive_cx :
    (transformRow ([]) ([]) ⟨"fr-s520se-0.2k-19", some 1, some 10⟩).isSome = true ∧
    lowerL ("fr-s520se-0.2k-19").toList = lowerL ("FR-S520SE-0.2K-19").toList :=
  ⟨rfl, rfl⟩

/-- C5 (amended): a record is excluded exactly when its quantity is
missing (`NaN`) or zero, or its stripped model equals
`FR-S520SE-0.2K-19` exactly (case-sensitively), or its stripped model
contains `PEC` case-insensitively. -/
theorem transformRow_excluded_iff (listprice_map price127_map : PriceMap)
    (row : InventoryRow) :
    transformRow listprice_map price127_map row = none ↔
      (row.qty = none ∨ row.qty = some 0 ∨
        String.mk (stripL row.model.toList) = ("FR-S520SE-0.2K-19") ∨
        containsSub (lowerL (String.mk (stripL row.model.toList)).toList)
          (['p', 'e', 'c']) = true) := by
  unfold transformRow
  rcases hq : row.qty with _ | q
  · simp
  · simp only [Option.some.injEq, reduceCtorEq, false_or]
    by_cases h0 : q = 0
    · subst h0
      simp
    · rw [if_neg h0]
      by_cases hc : (decide (String.mk (stripL row.model.toList) =
          ("FR-S520SE-0.2K-19")) ||
          containsSub (lowerL (String.mk (stripL row.model.toList)).toList)
            (['p', 'e', 'c'])) = true
      · rw [if_pos hc]
        constructor
        · intro _
          rcases (Bool.or_eq_true _ _).mp hc with hd | hcon
          · exact Or.inr (Or.inl (of_decide_eq_true hd))
          · exact Or.inr (Or.inr hcon)
        · intro _
          rfl
      · rw [if_neg hc]
        constructor
        · intro habs
          exact Option.noConfusion habs
        · intro hdis
          rcases hdis with h1 | h1 | h1
          · exact absurd h1 h0
          · exact absurd ((Bool.or_eq_true _ _).mpr
              (Or.inl (decide_eq_true h1))) hc
          · exact absurd ((Bool.or_eq_true _ _).mpr (Or.inr h1)) hc

/-- C6 counterexample: total cost 0 with quantity 1 gives unit cost 0;
the claim says the gross-profit percentage must then be absent, but the
script computes it (`cogs is not None` is true for `0.0`). -/
theorem gpPercent_zero_cost_cx :
    ((0 : ℚ) / 1 = 0) ∧
    (transformRow lpF840 ([]) rowZeroCost).map (fun r => (r.cogs, r.gpPercent)) =
      some (some (0 / 1), some ((28000 - 0 / 1) / 28000 * 100)) :=
  ⟨by simp, rfl⟩

/-- C6 (amended): the gross-profit percentage equals
`(listPrice - unitCost) / listPrice * 100` whenever the list price is
present and nonzero and the unit cost is present (zero included); it is
absent when the list price is absent or zero, or the unit cost absent. -/
theorem gpPercent_formula (listprice_map price127_map : PriceMap)
    (row : InventoryRow) (rec : PricedRecord)
    (h : transformRow listprice_map price127_map row = some rec) :
    (∀ p c, rec.listPrice = some p → rec.cogs = some c → p ≠ 0 →
      rec.gpPercent = some ((p - c) / p * 100)) ∧
    (rec.listPrice = none → rec.gpPercent = none) ∧
    (rec.listPrice = some 0 → rec.gpPercent = none) ∧
    (rec.cogs = none → rec.gpPercent = none) := by
  obtain ⟨q, hq, h0, hm, hqy, hlp, hcogs, hx, hp, h20, h25, h30, hgp⟩ :=
    transformRow_eq_some _ _ _ _ h
  refine ⟨?_, ?_, ?_, ?_⟩
  · intro p c hpc hcc hp0
    rw [hgp, hpc, hcc]
    show (if p = 0 then none else some ((p - c) / p * 100)) = _
    rw [if_neg hp0]
  · intro hn
    rw [hgp, hn]
  · intro hz
    rw [hgp, hz]
    rcases rec.cogs with _ | c
    · rfl
    · show (if (0 : ℚ) = 0 then none else _) = none
      rw [if_pos rfl]
  · intro hn
    rw [hgp, hn]
    rcases rec.listPrice with _ | p <;> rfl

/-- C6 witness: the spec's own example, list price 28000 and unit cost
20000, via the amended theorem. -/
theorem gpPercent_formula_witness :
    recF840.gpPercent = some ((28000 - 20000 / 1) / 28000 * 100) :=
  (gpPercent_formula lpF840 ([]) rowF840 recF840 rfl).1 28000 (20000 / 1)
    rfl rfl (by decide)

/-- C7 counterexample: a present-but-zero list price makes all three
discount fields absent, though the claim requires them whenever the
list price is present (`if list_price` is false for `0.0`). -/
theorem discounts_zero_lp_cx :
    (transformRow lpZero ([]) rowZeroLp).map
        (fun r => (r.listPrice, r.disc20, r.disc25, r.disc30)) =
      some (some 0, none, none, none) :=
  rfl

/-- C7 (amended): each discount equals `listPrice * (1 - N/100)` when
the list price is present and nonzero, and is absent when the list
price is absent or zero. -/
theorem discounts_formula (listprice_map price127_map : PriceMap)
    (row : InventoryRow) (rec : PricedRecord)
    (h : transformRow listprice_map price127_map row = some rec) :
    (∀ p, rec.listPrice = some p → p ≠ 0 →
      rec.disc20 = some (p * (80 / 100)) ∧
      rec.disc25 = some (p * (75 / 100)) ∧
      rec.disc30 = some (p * (70 / 100))) ∧
    (rec.listPrice = none →
      rec.disc20 = none ∧ rec.disc25 = none ∧ rec.disc30 = none) ∧
    (rec.listPrice = some 0 →
      rec.disc20 = none ∧ rec.disc25 = none ∧ rec.disc30 = none) := by
  obtain ⟨q, hq, h0, hm, hqy, hlp, hcogs, hx, hp, h20, h25, h30, hgp⟩ :=
    transformRow_eq_some _ _ _ _ h
  refine ⟨?_, ?_, ?_⟩
  · intro p hpc hp0
    rw [h20, h25, h30, hpc]
    simp [applyDisc, hp0]
  · intro hn
    rw [h20, h25, h30, hn]
    simp [applyDisc]
  · intro hz
    rw [h20, h25, h30, hz]
    simp [applyDisc]

/-- C7 witness: a direct entry at 50000 yields the three discounted
prices 40000, 37500 and 35000 of the spec's example, here stated as
the unreduced products. -/
theorem discounts_formula_witness :
    recD720.disc20 = some ((50000 : ℚ) * (80 / 100)) ∧
    recD720.disc25 = some ((50000 : ℚ) * (75 / 100)) ∧
    recD720.disc30 = some ((50000 : ℚ) * (70 / 100)) :=
  (discounts_formula lpD720 ([]) rowD720 recD720 rfl).1 50000 rfl (by decide)

/-- C8: when neither the list-price lookup nor any 1.27 path resolves,
the record's price fields and all derived fields are absent — the
embedding is total, so no exception is possible, and nothing defaults
to zero. -/
theorem absent_propagation (listprice_map price127_map : PriceMap)
    (row : InventoryRow) (rec : PricedRecord)
    (h : transformRow listprice_map price127_map row = some rec)
    (hlp : resolveListPrice rec.model listprice_map = none)
    (h127 : find_price127 rec.model price127_map = none) :
    rec.listPrice = none ∧ rec.disc20 = none ∧ rec.disc25 = none ∧
    rec.disc30 = none ∧ rec.gpPercent = none ∧ rec.price127 = none := by
  obtain ⟨q, hq, h0, hm, hqy, hlp', hcogs, hx, hp, h20, h25, h30, hgp⟩ :=
    transformRow_eq_some _ _ _ _ h
  have hL : rec.listPrice = none := by rw [hlp']; exact hlp
  refine ⟨hL, ?_, ?_, ?_, ?_, ?_⟩
  · rw [h20, hL]; rfl
  · rw [h25, hL]; rfl
  · rw [h30, hL]; rfl
  · rw [hgp, hL]
  · rw [hp]
    exact h127

/-- C8 witness: a model absent from both (empty) tables, all derived
fields absent. -/
theorem absent_propagation_witness :
    recNoPrice.listPrice = none ∧ recNoPrice.disc20 = none ∧
    recNoPrice.disc25 = none ∧ recNoPrice.disc30 = none ∧
    recNoPrice.gpPercent = none ∧ recNoPrice.price127 = none :=
  absent_propagation ([]) ([]) rowNoPrice recNoPrice rfl rfl rfl

/-- C9: the whole pipeline is a pure function of its three input
tables, so two runs on equal inputs produce identical ordered output;
the sort tie-break is the deterministic stable merge sort. -/
theorem pipeline_deterministic (lp1 lp2 p1 p2 : PriceMap)
    (inv1 inv2 : List InventoryRow)
    (hl : lp1 = lp2) (hp : p1 = p2) (hi : inv1 = inv2) :
    pipeline lp1 p1 inv1 = pipeline lp2 p2 inv2 := by
  rw [hl, hp, hi]

/-- C9 witness: two runs on the same concrete tables coincide. -/
theorem pipeline_deterministic_witness :
    pipeline lpF840 ([]) invDet = pipeline lpF840 ([]) invDet :=
  pipeline_deterministic lpF840 lpF840 ([]) ([]) invDet invDet rfl rfl rfl

/-- C10: a missing (`NaN`) quantity is excluded exactly like a zero
quantity, and every record that reaches the unit-cost division carries
a present, nonzero quantity as its divisor. -/
theorem qty_guard (listprice_map price127_map : PriceMap) (row : InventoryRow) :
    (row.qty = none → transformRow listprice_map price127_map row = none) ∧
    (∀ rec, transformRow listprice_map price127_map row = some rec →
      ∃ q, row.qty = some q ∧ q ≠ 0 ∧ rec.qty = q ∧
        rec.cogs = row.totalCost.map (fun tc => tc / q)) := by
  constructor
  · intro hn
    unfold transformRow
    rw [hn]
  · intro rec h
    obtain ⟨q, hq, h0, hm, hqy, hlp, hcogs, hx, hp, h20, h25, h30, hgp⟩ :=
      transformRow_eq_some _ _ _ _ h
    refine ⟨q, hq, h0, hqy, ?_⟩
    rw [hcogs]
    rcases row.totalCost with _ | tc <;> rfl

/-- C10 witness: a `NaN`-quantity row is dropped, and a kept row's
cost-of-goods field divides by its nonzero quantity. -/
theorem qty_guard_witness :
    transformRow ([]) ([]) rowNanQty = none ∧
    (∃ q, rowNoPrice.qty = some q ∧ q ≠ 0 ∧ recNoPrice.qty = q ∧
      recNoPrice.cogs = rowNoPrice.totalCost.map (fun tc => tc / q)) :=
  ⟨(qty_guard ([]) ([]) rowNanQty).1 rfl,
   (qty_guard ([]) ([]) rowNoPrice).2 recNoPrice rfl⟩

end VFD
